import Mathlib

/-!
Verification development for the greenhouse dashboard repository.

The repository consists of an Electron main process (src/unnamed/part_000)
that spawns a Python telemetry producer, ingests newline-delimited JSON
snapshots from its stdout into a shared variable `latestData`, serves that
variable over an IPC query, and forwards operator override / clear commands
as JSON lines to the producer's stdin; and renderer code (src/scripts.js,
src/unnamed/part_001) that polls the query, merges locally stored sensor
overrides into the received snapshot and renders it.

This file gives a shallow embedding of those operations:
  * a `Json` value type together with an executable parser `jsonParseL`
    modelling the behaviour of `JSON.parse` on the JSON subset exchanged by
    the processes (objects, arrays, strings with the common escapes,
    decimal numbers without exponents, `true`/`false`/`null`), and an
    executable serializer `jsonStringifyChars` modelling `JSON.stringify`
    on the same subset;
  * the stdout data handler, the `get-sensor-data` query handler and the
    `override-sensor` / `clear-override` write handlers of the main
    process;
  * a typed model of the renderer's override table and of
    `updateDashboard` / `update` / `setActuator`.

Mutation of JavaScript objects is made explicit: a function that mutates
its argument in the source is embedded as a function returning the
post-call value of that argument.
-/

/-- JSON values.  Numbers are kept in the decimal form in which they are
written on the wire: `num m e` denotes the number `m / 10 ^ e`, printed
with exactly `e` fraction digits. -/
inductive Json where
  | null : Json
  | bool (b : Bool) : Json
  | num (m : Int) (e : Nat) : Json
  | str (s : String) : Json
  | arr (xs : List Json) : Json
  | obj (fields : List (String × Json)) : Json
deriving Repr

/-- The whitespace characters recognised by `String.prototype.trim` and by
the JSON grammar (the subset that actually occurs on this wire). -/
def isWs (c : Char) : Bool :=
  c == '\t' || c == '\n' || c == '\x0d' || c == ' '

/-- Drop leading whitespace. -/
def skipWs : List Char → List Char
  | [] => []
  | c :: r => if isWs c then skipWs r else c :: r

/-- Drop trailing whitespace. -/
def trimEndL (cs : List Char) : List Char :=
  (skipWs cs.reverse).reverse

/-- Model of `String.prototype.trim` on character lists. -/
def trimL (cs : List Char) : List Char :=
  trimEndL (skipWs cs)

/-- Model of `String.prototype.split('\n')`: split on every newline,
keeping empty segments. -/
def splitNl : List Char → List (List Char)
  | [] => [[]]
  | c :: r =>
    if c = '\n' then [] :: splitNl r
    else
      match splitNl r with
      | [] => [[c]]
      | l :: ls => (c :: l) :: ls

/-- Decode one escape character of a JSON string literal. -/
def unescapeChar (c : Char) : Option Char :=
  if c = '"' then some '"'
  else if c = '\\' then some '\\'
  else if c = '/' then some '/'
  else if c = 'n' then some '\n'
  else if c = 't' then some '\t'
  else if c = 'r' then some '\r'
  else none

/-- Scanner for the body of a JSON string literal; the flag records a
pending backslash. -/
def parseStringBodyAux : Bool → List Char → Option (List Char × List Char)
  | _, [] => none
  | false, c :: rest =>
    if c = '"' then some ([], rest)
    else if c = '\\' then parseStringBodyAux true rest
    else
      match parseStringBodyAux false rest with
      | some (s, r) => some (c :: s, r)
      | none => none
  | true, e :: rest =>
    match unescapeChar e with
    | some u =>
      match parseStringBodyAux false rest with
      | some (s, r) => some (u :: s, r)
      | none => none
    | none => none

/-- Parse the body of a JSON string literal (the opening quote already
consumed); returns the decoded characters and the input after the closing
quote. -/
def parseStringBody (cs : List Char) : Option (List Char × List Char) :=
  parseStringBodyAux false cs

/-- Longest prefix of decimal digits, and the rest. -/
def spanDigits : List Char → List Char × List Char
  | [] => ([], [])
  | c :: r =>
    if c.isDigit then
      let p := spanDigits r
      (c :: p.1, p.2)
    else ([], c :: r)

/-- Value of a big-endian list of decimal digit characters. -/
def digitsVal (cs : List Char) : Nat :=
  cs.foldl (fun a c => 10 * a + (c.toNat - 48)) 0

/-- Parse an unsigned decimal number: digits with an optional fraction
part.  Returns the numerator, the number of fraction digits and the
remaining input. -/
def parsePosNum (cs : List Char) : Option (Nat × Nat × List Char) :=
  let p := spanDigits cs
  if p.1.isEmpty then none
  else
    match p.2 with
    | c :: r2 =>
      if c = '.' then
        let q := spanDigits r2
        if q.1.isEmpty then none
        else some (digitsVal p.1 * 10 ^ q.1.length + digitsVal q.1, q.1.length, q.2)
      else some (digitsVal p.1, 0, c :: r2)
    | [] => some (digitsVal p.1, 0, [])

/-- Parse a JSON number (optional minus sign, digits, optional fraction). -/
def parseNumber (cs : List Char) : Option (Json × List Char) :=
  match cs with
  | [] => none
  | c :: r =>
    if c = '-' then
      match parsePosNum r with
      | some (n, e, rest) => some (.num (-(n : Int)) e, rest)
      | none => none
    else
      match parsePosNum (c :: r) with
      | some (n, e, rest) => some (.num (n : Int) e, rest)
      | none => none

mutual

/-- Parse one JSON value, fuel-bounded.  Fuel is spent only on nesting, so
`2 * length + 4` fuel always suffices for the top-level entry point. -/
def parseVal : Nat → List Char → Option (Json × List Char)
  | 0, _ => none
  | fuel + 1, cs => pvCore fuel (skipWs cs)

/-- Dispatch on the first non-blank character of a value. -/
def pvCore : Nat → List Char → Option (Json × List Char)
  | 0, _ => none
  | _ + 1, [] => none
  | fuel + 1, c :: r =>
    if c = 'n' then
      match r with
      | 'u' :: 'l' :: 'l' :: r2 => some (.null, r2)
      | _ => none
    else if c = 't' then
      match r with
      | 'r' :: 'u' :: 'e' :: r2 => some (.bool true, r2)
      | _ => none
    else if c = 'f' then
      match r with
      | 'a' :: 'l' :: 's' :: 'e' :: r2 => some (.bool false, r2)
      | _ => none
    else if c = '"' then
      match parseStringBody r with
      | some (s, r2) => some (.str ⟨s⟩, r2)
      | none => none
    else if c = '[' then pvArr fuel r
    else if c = '\x7b' then pvObj fuel r
    else parseNumber (c :: r)

/-- Continuation after `[`. -/
def pvArr : Nat → List Char → Option (Json × List Char)
  | 0, _ => none
  | fuel + 1, r =>
    match skipWs r with
    | c2 :: r2 =>
      if c2 = ']' then some (.arr [], r2)
      else
        match parseItems fuel r with
        | some (xs, r3) => some (.arr xs, r3)
        | none => none
    | [] => none

/-- Continuation after `{`. -/
def pvObj : Nat → List Char → Option (Json × List Char)
  | 0, _ => none
  | fuel + 1, r =>
    match skipWs r with
    | c2 :: r2 =>
      if c2 = '\x7d' then some (.obj [], r2)
      else
        match parseMembers fuel r with
        | some (fs, r3) => some (.obj fs, r3)
        | none => none
    | [] => none

/-- Parse the items of a non-empty JSON array up to the closing bracket. -/
def parseItems : Nat → List Char → Option (List Json × List Char)
  | 0, _ => none
  | fuel + 1, cs =>
    match parseVal fuel cs with
    | none => none
    | some (j, r) => piAfter fuel j r

/-- Continuation after one array item. -/
def piAfter : Nat → Json → List Char → Option (List Json × List Char)
  | 0, _, _ => none
  | fuel + 1, j, r =>
    match skipWs r with
    | c :: r2 =>
      if c = ',' then
        match parseItems fuel r2 with
        | some (xs, r3) => some (j :: xs, r3)
        | none => none
      else if c = ']' then some ([j], r2)
      else none
    | [] => none

/-- Parse the members of a non-empty JSON object up to the closing brace. -/
def parseMembers : Nat → List Char → Option (List (String × Json) × List Char)
  | 0, _ => none
  | fuel + 1, cs =>
    match skipWs cs with
    | c :: r =>
      if c = '"' then
        match parseStringBody r with
        | some (k, r2) => pmAfterKey fuel k r2
        | none => none
      else none
    | [] => none

/-- Continuation after a member key. -/
def pmAfterKey : Nat → List Char → List Char → Option (List (String × Json) × List Char)
  | 0, _, _ => none
  | fuel + 1, k, r2 =>
    match skipWs r2 with
    | c2 :: r3 => if c2 = ':' then pmAfterColon fuel k r3 else none
    | [] => none

/-- Continuation after a member's colon. -/
def pmAfterColon : Nat → List Char → List Char → Option (List (String × Json) × List Char)
  | 0, _, _ => none
  | fuel + 1, k, r3 =>
    match parseVal fuel r3 with
    | some (v, r4) => pmAfterVal fuel k v r4
    | none => none

/-- Continuation after a member value. -/
def pmAfterVal : Nat → List Char → Json → List Char → Option (List (String × Json) × List Char)
  | 0, _, _, _ => none
  | fuel + 1, k, v, r4 =>
    match skipWs r4 with
    | c3 :: r5 =>
      if c3 = ',' then
        match parseMembers fuel r5 with
        | some (fs, r6) => some ((⟨k⟩, v) :: fs, r6)
        | none => none
      else if c3 = '\x7d' then some ([(⟨k⟩, v)], r5)
      else none
    | [] => none

end

/-- Model of `JSON.parse` on character lists: a full parse of one value,
allowing surrounding whitespace, rejecting trailing garbage. -/
def jsonParseL (cs : List Char) : Option Json :=
  match parseVal (8 * cs.length + 8) cs with
  | some (j, r) => if (skipWs r).isEmpty then some j else none
  | none => none

/-- Model of `JSON.parse` on strings. -/
def jsonParse (s : String) : Option Json :=
  jsonParseL s.data

/-- Field lookup in an association list of object members. -/
def lookupField : List (String × Json) → String → Option Json
  | [], _ => none
  | (k', v) :: fs, k => if k' = k then some v else lookupField fs k

/-- Model of JavaScript property read `j[k]` on a parsed JSON value
(`none` plays the role of `undefined`). -/
def jsonLookup (j : Json) (k : String) : Option Json :=
  match j with
  | .obj fs => lookupField fs k
  | _ => none

/-- The character of one decimal digit. -/
def digitChar (d : Nat) : Char := Char.ofNat (48 + d)

/-- Fuel-bounded loop extracting big-endian decimal digit characters in
front of an accumulator. -/
def digitsLoop : Nat → Nat → List Char → List Char
  | 0, _, acc => acc
  | fuel + 1, n, acc =>
    if n = 0 then acc else digitsLoop fuel (n / 10) (digitChar (n % 10) :: acc)

/-- Big-endian decimal digit characters of a natural number (`"0"` for 0),
as printed by JavaScript number-to-string conversion. -/
def natDigitsBE (n : Nat) : List Char :=
  if n = 0 then ['0'] else digitsLoop (n + 1) n []

/-- The digits of `n` left-padded with zeros to more than `e` digits. -/
def paddedDigits (n e : Nat) : List Char :=
  List.replicate (e + 1 - (natDigitsBE n).length) '0' ++ natDigitsBE n

/-- Decimal characters of the unsigned number `n / 10 ^ e`, printed with
exactly `e` fraction digits. -/
def posChars (n e : Nat) : List Char :=
  if e = 0 then natDigitsBE n
  else
    (paddedDigits n e).take ((paddedDigits n e).length - e)
      ++ '.' :: (paddedDigits n e).drop ((paddedDigits n e).length - e)

/-- Decimal characters of the JSON number `num m e`. -/
def numChars (m : Int) (e : Nat) : List Char :=
  (if m < 0 then ['-'] else []) ++ posChars m.natAbs e

/-- Escaping of one character inside a JSON string literal, as performed by
`JSON.stringify`. -/
def escapeChar (c : Char) : List Char :=
  if c = '"' then ['\\', '"']
  else if c = '\\' then ['\\', '\\']
  else if c = '\n' then ['\\', 'n']
  else if c = '\t' then ['\\', 't']
  else if c = '\r' then ['\\', 'r']
  else [c]

/-- Escaping of a character list inside a JSON string literal. -/
def escapeChars : List Char → List Char
  | [] => []
  | c :: cs => escapeChar c ++ escapeChars cs

mutual

/-- Model of `JSON.stringify` (no added whitespace, members in insertion
order), producing characters. -/
def jsonStringifyChars : Json → List Char
  | .null => "null".data
  | .bool true => "true".data
  | .bool false => "false".data
  | .num m e => numChars m e
  | .str s => '"' :: (escapeChars s.data ++ ['"'])
  | .arr xs => '[' :: (itemsChars xs ++ [']'])
  | .obj fs => '\x7b' :: (membersChars fs ++ ['\x7d'])

/-- Comma-separated serialized items of an array. -/
def itemsChars : List Json → List Char
  | [] => []
  | [x] => jsonStringifyChars x
  | x :: y :: xs => jsonStringifyChars x ++ ',' :: itemsChars (y :: xs)

/-- Comma-separated serialized members of an object. -/
def membersChars : List (String × Json) → List Char
  | [] => []
  | [(k, v)] => '"' :: (escapeChars k.data ++ '"' :: ':' :: jsonStringifyChars v)
  | (k, v) :: f :: fs =>
    '"' :: (escapeChars k.data ++ '"' :: ':' :: jsonStringifyChars v)
      ++ ',' :: membersChars (f :: fs)

end

/-- Model of `JSON.stringify` on strings. -/
def jsonStringify (j : Json) : String := ⟨jsonStringifyChars j⟩

example : jsonParse ("\x7b\"a\":1\x7d") = some (.obj [("a", .num 1 0)]) := by rfl
example : jsonParse ("\x7b\"a\": -2.50\x7d") = some (.obj [("a", .num (-250) 2)]) := by rfl
example : jsonParse ("\x7b\"a\":1") = none := by rfl
example : jsonParse ("[1,true,null,\"x\"]")
    = some (.arr [.num 1 0, .bool true, .null, .str "x"]) := by rfl
example : splitNl ("a\nb\n".data) = ["a".data, "b".data, []] := by rfl
example : trimL (" a ".data) = ['a'] := by rfl
example : jsonStringify (.obj [("a", .num (-250) 2), ("b", .str "x\"y")])
    = "\x7b\"a\":-2.50,\"b\":\"x\\\"y\"\x7d" := by
  simp only [jsonStringify, jsonStringifyChars, membersChars]
  rfl

/-! ## The Snapshot Store (src/unnamed/part_000, main process)

`let latestData = {};` and the handler

```
py.stdout.on('data', (data) => {
  try {
    const lines = data.toString().split('\n');
    for (const line of lines) {
      if (line.trim()) latestData = JSON.parse(line);
    }
  } catch (err) { console.error("JSON error:", err); }
});
```

The `try` block wraps the whole loop: assignments made by earlier lines of
a delivery survive, and a `JSON.parse` exception aborts the remaining
lines of that delivery.  The state threaded below is the current value of
`latestData`. -/

/-- Initial value of `latestData`: the empty object literal `{}`. -/
def initialLatest : Json := .obj []

/-- The `for (const line of lines)` loop: skip blank lines, assign the
parse of each other line, abort the delivery on a parse error keeping the
last assignment. -/
def processLines : Json → List (List Char) → Json
  | st, [] => st
  | st, l :: ls =>
    if (trimL l).isEmpty then processLines st ls
    else
      match jsonParseL l with
      | some j => processLines j ls
      | none => st

/-- The stdout data handler on one delivery (character-list level). -/
def stdoutDataHandlerL (st : Json) (data : List Char) : Json :=
  processLines st (splitNl data)

/-- The stdout data handler on one delivery. -/
def stdoutDataHandler (st : Json) (data : String) : Json :=
  stdoutDataHandlerL st data.data

/-- The `get-sensor-data` IPC handler: `async () => latestData`. -/
def getSensorDataHandler (latest : Json) : Json := latest

/-- A line of a delivery that cannot change `latestData`: blank after
trimming, or rejected by `JSON.parse`. -/
def deadLine (l : List Char) : Bool :=
  (trimL l).isEmpty || (jsonParseL l).isNone

/-! ## The Command Relay (src/unnamed/part_000, main process)

```
ipcMain.on('override-sensor', (event, { sensor, value }) => {
  if (py) { py.stdin.write(JSON.stringify({ type: 'override', sensor, value }) + '\n'); }
});
ipcMain.on('clear-override', (event, { sensor }) => {
  if (py) { py.stdin.write(JSON.stringify({ type: 'clear_override', sensor }) + '\n'); }
});
```

The state records whether `py` is set and the sequence of strings written
to the producer's stdin. -/

/-- The command object `{ type: 'override', sensor, value }` (JavaScript
object literal keys keep insertion order under `JSON.stringify`). -/
def overrideCmd (sensor : String) (m : Int) (e : Nat) : Json :=
  .obj [("type", .str "override"), ("sensor", .str sensor), ("value", .num m e)]

/-- The command object `{ type: 'clear_override', sensor }`. -/
def clearCmd (sensor : String) : Json :=
  .obj [("type", .str "clear_override"), ("sensor", .str sensor)]

/-- Relay state: the `py` process handle (as a liveness flag) and the
write log of its stdin. -/
structure RelayState where
  pyAlive : Bool
  writes : List String
deriving Repr, DecidableEq

/-- The `override-sensor` IPC handler. -/
def overrideSensorHandler (st : RelayState) (sensor : String) (m : Int) (e : Nat) :
    RelayState :=
  if st.pyAlive then
    { st with writes := st.writes ++ [jsonStringify (overrideCmd sensor m e) ++ "\n"] }
  else st

/-- The `clear-override` IPC handler. -/
def clearOverrideHandler (st : RelayState) (sensor : String) : RelayState :=
  if st.pyAlive then
    { st with writes := st.writes ++ [jsonStringify (clearCmd sensor) ++ "\n"] }
  else st

/-! ## The renderer override system and dashboard (src/scripts.js)

The override table declared at lines 24-29 holds one nullable entry per
sensor; `applyOverride` / `resetOverride` (lines 31-41) set an entry to a
number or back to `null`.  `updateDashboard` (lines 70-128) takes the
snapshot received from the query, overwrites its sensor fields in place
with the active overrides (`if (overrides.x !== null) s.x = overrides.x;`)
and renders from the mutated object.  JavaScript numbers are embedded as
rationals; `null` is `none`. -/

/-- The four sensors of the protocol. -/
inductive SensorName where
  | temperature | moisture | light | co2
deriving Repr, DecidableEq

/-- The `sensors` part of a snapshot as read by `updateDashboard`
(`s.temperature`, `s.moisture`, `s.co2`, `s.light`, `s.timestamp`). -/
structure Sensors where
  temperature : ℚ
  moisture : ℚ
  light : ℚ
  co2 : ℚ
  timestamp : String
deriving Repr, DecidableEq

/-- An actuator value as it reaches `setActuator`: a number, a discrete
string label, or one of the non-numeric non-string values (`null`,
`undefined`, a boolean), all of which `parseFloat(value) || 0` coerces
to 0. -/
inductive ActVal where
  | num (q : ℚ)
  | str (s : String)
  | nul
  | undef
  | boolean (b : Bool)
deriving Repr, DecidableEq

/-- The `actuators` part of a snapshot (`a.heater_pct`, ...). -/
structure Actuators where
  heater_pct : ActVal
  cooler_pct : ActVal
  pump_pct : ActVal
  drain_pct : ActVal
  lamp_pct : ActVal
  shutter_pct : ActVal
  co2_pump_pct : ActVal
  co2_vent_pct : ActVal
deriving Repr, DecidableEq

/-- One alert record `{value, status}`. -/
structure AlertInfo where
  value : ℚ
  status : String
deriving Repr, DecidableEq

/-- The snapshot object passed to `updateDashboard` (`data.sensors`,
`data.actuators`, `data.alerts`). -/
structure SnapData where
  sensors : Sensors
  actuators : Actuators
  alerts : List (String × AlertInfo)
deriving Repr, DecidableEq

/-- The renderer override table (lines 24-29): one nullable entry per
sensor, initially all `null`. -/
structure Overrides where
  temperature : Option ℚ
  moisture : Option ℚ
  light : Option ℚ
  co2 : Option ℚ
deriving Repr, DecidableEq

/-- `applyOverride(type, value)` (line 31-35): `overrides[type] = value`. -/
def applyOverride (ov : Overrides) (ty : SensorName) (v : ℚ) : Overrides :=
  match ty with
  | .temperature => { ov with temperature := some v }
  | .moisture => { ov with moisture := some v }
  | .light => { ov with light := some v }
  | .co2 => { ov with co2 := some v }

/-- `resetOverride(type)` (line 37-41): `overrides[type] = null`. -/
def resetOverride (ov : Overrides) (ty : SensorName) : Overrides :=
  match ty with
  | .temperature => { ov with temperature := none }
  | .moisture => { ov with moisture := none }
  | .light => { ov with light := none }
  | .co2 => { ov with co2 := none }

/-- The override entry for one sensor. -/
def ovVal (ov : Overrides) : SensorName → Option ℚ
  | .temperature => ov.temperature
  | .moisture => ov.moisture
  | .light => ov.light
  | .co2 => ov.co2

/-- The raw reading of one sensor. -/
def sensorVal (s : Sensors) : SensorName → ℚ
  | .temperature => s.temperature
  | .moisture => s.moisture
  | .light => s.light
  | .co2 => s.co2

/-- Lines 76-79 of `updateDashboard`: the post-call value of the snapshot's
`sensors` object, whose fields the code overwrites in place
(`if (overrides.temperature !== null) s.temperature = overrides.temperature;`
and likewise for moisture, light, co2; the timestamp is not touched). -/
def applySensorOverrides (ov : Overrides) (s : Sensors) : Sensors :=
  { s with
    temperature := match ov.temperature with | some v => v | none => s.temperature
    moisture := match ov.moisture with | some v => v | none => s.moisture
    light := match ov.light with | some v => v | none => s.light
    co2 := match ov.co2 with | some v => v | none => s.co2 }

/-- The post-call value of the `data` argument of `updateDashboard`: its
`sensors` object has been mutated by lines 76-79, the `actuators` and
`alerts` objects are only read.  The values the dashboard renders are read
from this mutated object. -/
def updateDashboardData (ov : Overrides) (d : SnapData) : SnapData :=
  { d with sensors := applySensorOverrides ov d.sensors }

/-! ## setActuator (src/scripts.js lines 130-154) -/

/-- What `setActuator` writes to the DOM: the status text, the status
class and the gauge width percentage (the code sets
`gauge.style.width = pct + "%"`). -/
structure ActuatorDisplay where
  statusText : String
  statusClass : String
  gaugeWidthPct : ℚ
deriving Repr, DecidableEq

/-- `setActuator(id, value)` with both DOM elements present.  A string
value is compared against the labels `"HIGH"` / `"LOW"`; any other value
goes through `parseFloat(value) || 0` (the identity on numbers, 0 on
`null`, `undefined` and booleans). -/
def setActuator : ActVal → ActuatorDisplay
  | .str s =>
    ⟨if s = "HIGH" then "⚙️ HIGH POWER" else if s = "LOW" then "⚙️ LOW POWER" else "✅",
     if s = "HIGH" ∨ s = "LOW" then "status active" else "status idle",
     if s = "HIGH" then 100 else if s = "LOW" then 40 else 0⟩
  | .num q =>
    if q > 40 then ⟨"⚙️ HIGH POWER", "status active", q⟩
    else if q > 0 then ⟨"⚙️ LOW POWER", "status active", q⟩
    else ⟨"✅", "status idle", q⟩
  | .nul => ⟨"✅", "status idle", 0⟩
  | .undef => ⟨"✅", "status idle", 0⟩
  | .boolean _ => ⟨"✅", "status idle", 0⟩

/-! ## The second update() variant (src/scripts.js lines 174-196)

The later (and therefore effective) declaration of `update` fetches
`data = await window.plcAPI.getSensorData()` and then merges the
`sensorOverrides` table from localStorage into `data.sensors` in place
(`if (overrides.x !== undefined) data.sensors.x = overrides.x;`), before
handing `data` to `updateDashboard`.  The override values here are JSON
values read back from localStorage; an absent key is `none`. -/

/-- The localStorage `sensorOverrides` table of the second `update`
variant: JSON values, absent keys are `undefined`. -/
structure JOverrides where
  temperature : Option Json
  moisture : Option Json
  light : Option Json
  co2 : Option Json
deriving Repr

/-- Overwrite (or add) the member `k` of an object; on a non-object the
JavaScript assignment cannot be modelled as a value and the argument is
returned unchanged (the code never reaches that case on well-shaped
snapshots). -/
def setField : List (String × Json) → String → Json → List (String × Json)
  | [], k, v => [(k, v)]
  | (k', v') :: fs, k, v =>
    if k' = k then (k, v) :: fs else (k', v') :: setField fs k v

/-- Assignment `j[k] = v` on a JSON object value. -/
def jsonSetField (j : Json) (k : String) (v : Json) : Json :=
  match j with
  | .obj fs => .obj (setField fs k v)
  | _ => j

/-- One conditional assignment
`if (ov !== undefined) data.sensors[name] = ov;`. -/
def setSensorField (d : Json) (name : String) (o : Option Json) : Json :=
  match o with
  | some v =>
    match jsonLookup d "sensors" with
    | some s => jsonSetField d "sensors" (jsonSetField s name v)
    | none => d
  | none => d

/-- Lines 185-189 of the second `update`: the value of `data` after the
four conditional in-place assignments, i.e. the effective state the
renderer actually displays. -/
def applySensorOverridesJson (ov : JOverrides) (d : Json) : Json :=
  setSensorField
    (setSensorField
      (setSensorField
        (setSensorField d "temperature" ov.temperature)
        "moisture" ov.moisture)
      "light" ov.light)
    "co2" ov.co2

/-! ## Lemmas about line splitting and the delivery loop -/

theorem splitNl_append_nl (s t : List Char) (h : '\n' ∉ s) :
    splitNl (s ++ '\n' :: t) = s :: splitNl t := by
  induction s with
  | nil => simp [splitNl]
  | cons c s ih =>
    have hc : c ≠ '\n' := fun hc => h (hc ▸ List.mem_cons_self c s)
    have hs : '\n' ∉ s := fun hm => h (List.mem_cons_of_mem c hm)
    simp [splitNl, hc, ih hs]

theorem splitNl_no_nl (s : List Char) (h : '\n' ∉ s) : splitNl s = [s] := by
  induction s with
  | nil => rfl
  | cons c s ih =>
    have hc : c ≠ '\n' := fun hc => h (hc ▸ List.mem_cons_self c s)
    have hs : '\n' ∉ s := fun hm => h (List.mem_cons_of_mem c hm)
    simp [splitNl, hc, ih hs]

theorem processLines_dead (st : Json) (ls : List (List Char))
    (h : ∀ l ∈ ls, deadLine l = true) : processLines st ls = st := by
  induction ls with
  | nil => rfl
  | cons l ls ih =>
    have hl := h l (List.mem_cons_self l ls)
    have hrest : ∀ x ∈ ls, deadLine x = true := fun x hx => h x (List.mem_cons_of_mem l hx)
    by_cases hb : (trimL l).isEmpty = true
    · simp [processLines, hb, ih hrest]
    · have hn : (jsonParseL l).isNone = true := by
        simpa [deadLine, hb] using hl
      have hn' : jsonParseL l = none := Option.isNone_iff_eq_none.mp hn
      simp [processLines, hb, hn']

theorem trimL_nil_isEmpty : (trimL ([] : List Char)).isEmpty = true := rfl

theorem handlerSingleNl (st : Json) (s : List Char) (j : Json)
    (hn : '\n' ∉ s) (hb : (trimL s).isEmpty = false) (hp : jsonParseL s = some j) :
    stdoutDataHandlerL st (s ++ ['\n']) = j := by
  have hs : splitNl (s ++ '\n' :: ([] : List Char)) = s :: splitNl [] :=
    splitNl_append_nl s [] hn
  rw [stdoutDataHandlerL, show s ++ ['\n'] = s ++ '\n' :: [] from rfl, hs]
  simp [processLines, hb, hp, splitNl, trimL_nil_isEmpty]

theorem handlerBatchTwo (st : Json) (s1 s2 : List Char) (j1 j2 : Json)
    (hn1 : '\n' ∉ s1) (hn2 : '\n' ∉ s2)
    (hb1 : (trimL s1).isEmpty = false) (hb2 : (trimL s2).isEmpty = false)
    (hp1 : jsonParseL s1 = some j1) (hp2 : jsonParseL s2 = some j2) :
    stdoutDataHandlerL st (s1 ++ '\n' :: (s2 ++ ['\n'])) = j2 := by
  have hs1 : splitNl (s1 ++ '\n' :: (s2 ++ ['\n'])) = s1 :: splitNl (s2 ++ ['\n']) :=
    splitNl_append_nl s1 (s2 ++ ['\n']) hn1
  have hs2 : splitNl (s2 ++ '\n' :: ([] : List Char)) = s2 :: splitNl [] :=
    splitNl_append_nl s2 [] hn2
  rw [stdoutDataHandlerL, hs1, show s2 ++ ['\n'] = s2 ++ '\n' :: [] from rfl, hs2]
  simp [processLines, hb1, hp1, hb2, hp2, splitNl, trimL_nil_isEmpty]

theorem foldlHandlerDead (st : Json) (ds : List (List Char))
    (h : ∀ d ∈ ds, ∀ l ∈ splitNl d, deadLine l = true) :
    List.foldl stdoutDataHandlerL st ds = st := by
  induction ds with
  | nil => rfl
  | cons d ds ih =>
    have hd : stdoutDataHandlerL st d = st :=
      processLines_dead st (splitNl d) (h d (List.mem_cons_self d ds))
    have hrest : ∀ x ∈ ds, ∀ l ∈ splitNl x, deadLine l = true :=
      fun x hx => h x (List.mem_cons_of_mem d hx)
    simpa [hd] using ih hrest

/-! ## Claims C2, C3, C4, C7, C8 about the Snapshot Store -/

/-- C2 (counterexample): the claim says that before any ingest `read()`
returns a default snapshot with all four sensor values at a documented
baseline, empty actuators and empty alerts.  In fact the initial value of
`latestData` is the empty object `{}`, which has no `sensors` member at
all (and no `actuators` or `alerts` members either), so there are no
baseline sensor values. -/
theorem read_initial_no_sensors_cex :
    getSensorDataHandler initialLatest = Json.obj [] ∧
    jsonLookup (getSensorDataHandler initialLatest) "sensors" = none ∧
    jsonLookup (getSensorDataHandler initialLatest) "actuators" = none :=
  ⟨rfl, rfl, rfl⟩

/-- C2 (amended): before any successful ingest — that is, after any
sequence of stdout deliveries in which every line is blank or rejected by
`JSON.parse` — the `get-sensor-data` query returns the empty object `{}`:
a well-defined value, not an error, a rejection or an uninitialized value,
but not a populated default snapshot either. -/
theorem read_default_empty_object (ds : List (List Char))
    (h : ∀ d ∈ ds, ∀ l ∈ splitNl d, deadLine l = true) :
    getSensorDataHandler (List.foldl stdoutDataHandlerL initialLatest ds) = Json.obj [] :=
  foldlHandlerDead initialLatest ds h

/-- C2 (witness): two deliveries, one garbage line and one blank line,
leave the query at `{}`. -/
theorem read_default_empty_object_witness :
    (∀ d ∈ [("oops".data : List Char), "\n".data], ∀ l ∈ splitNl d, deadLine l = true) ∧
    getSensorDataHandler
      (List.foldl stdoutDataHandlerL initialLatest [("oops".data : List Char), "\n".data])
      = Json.obj [] :=
  ⟨by decide, read_default_empty_object _ (by decide)⟩

/-- C3 (counterexample): the claim says a line that parses to an object
missing a required Snapshot field is discarded, leaving the store
unchanged.  In fact the handler performs no field validation: the line
`{"foo":1}` parses, so it replaces the stored snapshot, and a read after
it no longer has a `sensors` member. -/
theorem ingest_missing_field_replaces_cex :
    jsonLookup
      (stdoutDataHandler (Json.obj [("sensors", Json.obj [("temperature", Json.num 22 0)])])
        ("\x7b\"foo\":1\x7d\n"))
      "sensors" = none ∧
    jsonLookup (Json.obj [("sensors", Json.obj [("temperature", Json.num 22 0)])]) "sensors"
      = some (Json.obj [("temperature", Json.num 22 0)]) ∧
    (some (Json.obj [("temperature", Json.num 22 0)]) : Option Json) ≠ none :=
  ⟨rfl, rfl, by simp⟩

/-- C3 (amended): a single line that `JSON.parse` rejects leaves the
stored snapshot unchanged (the exception is caught, hence non-fatal), and
a malformed non-blank line additionally aborts the processing of the later
lines of the same delivery; but a line that parses is stored without any
check for the required Snapshot fields. -/
theorem ingest_malformed_line_unchanged (st : Json) (l rest : List Char)
    (hn : '\n' ∉ l) (hp : jsonParseL l = none) :
    stdoutDataHandlerL st (l ++ ['\n']) = st ∧
    ((trimL l).isEmpty = false → stdoutDataHandlerL st (l ++ '\n' :: rest) = st) := by
  constructor
  · rw [stdoutDataHandlerL, show l ++ ['\n'] = l ++ '\n' :: [] from rfl,
      splitNl_append_nl l [] hn]
    by_cases hb : (trimL l).isEmpty = true
    · simp [processLines, hb, splitNl, trimL_nil_isEmpty]
    · simp [processLines, hb, hp]
  · intro hb
    rw [stdoutDataHandlerL, splitNl_append_nl l rest hn]
    simp [processLines, hb, hp]

/-- C3 (witness): ingesting the malformed line `{"a":` leaves a stored
snapshot untouched, also when followed by further lines. -/
theorem ingest_malformed_line_unchanged_witness :
    ('\n' ∉ ("\x7b\"a\":".data : List Char)) ∧
    (stdoutDataHandlerL (Json.num 7 0) ("\x7b\"a\":".data ++ ['\n']) = Json.num 7 0 ∧
     ((trimL ("\x7b\"a\":".data)).isEmpty = false →
       stdoutDataHandlerL (Json.num 7 0) ("\x7b\"a\":".data ++ '\n' :: "1".data)
         = Json.num 7 0)) :=
  ⟨by decide, ingest_malformed_line_unchanged (Json.num 7 0) _ _ (by decide) (by rfl)⟩

/-- C4 (confirmed): for two well-formed snapshot lines ingested in order —
in one batched delivery or in two separate deliveries — a subsequent read
returns exactly the second one, never the first and never a merge. -/
theorem ingest_last_write_wins (st : Json) (s1 s2 : List Char) (j1 j2 : Json)
    (hn1 : '\n' ∉ s1) (hn2 : '\n' ∉ s2)
    (hb1 : (trimL s1).isEmpty = false) (hb2 : (trimL s2).isEmpty = false)
    (hp1 : jsonParseL s1 = some j1) (hp2 : jsonParseL s2 = some j2) :
    getSensorDataHandler (stdoutDataHandlerL st (s1 ++ '\n' :: (s2 ++ ['\n']))) = j2 ∧
    getSensorDataHandler
      (stdoutDataHandlerL (stdoutDataHandlerL st (s1 ++ ['\n'])) (s2 ++ ['\n'])) = j2 := by
  constructor
  · exact handlerBatchTwo st s1 s2 j1 j2 hn1 hn2 hb1 hb2 hp1 hp2
  · rw [getSensorDataHandler, handlerSingleNl st s1 j1 hn1 hb1 hp1,
      handlerSingleNl j1 s2 j2 hn2 hb2 hp2]

/-- C4 (witness): ingesting `{"a":1}` then `{"a":2}` reads back the
second snapshot in both delivery patterns. -/
theorem ingest_last_write_wins_witness :
    ('\n' ∉ ("\x7b\"a\":1\x7d".data : List Char)) ∧
    (getSensorDataHandler
        (stdoutDataHandlerL initialLatest
          ("\x7b\"a\":1\x7d".data ++ '\n' :: ("\x7b\"a\":2\x7d".data ++ ['\n'])))
        = Json.obj [("a", Json.num 2 0)] ∧
     getSensorDataHandler
        (stdoutDataHandlerL (stdoutDataHandlerL initialLatest ("\x7b\"a\":1\x7d".data ++ ['\n']))
          ("\x7b\"a\":2\x7d".data ++ ['\n']))
        = Json.obj [("a", Json.num 2 0)]) :=
  ⟨by decide,
   ingest_last_write_wins initialLatest _ _ (Json.obj [("a", Json.num 1 0)]) _
     (by decide) (by decide) (by decide) (by decide) (by rfl) (by rfl)⟩

/-- C7 (counterexample): the claim says a delivery not ending on a line
boundary has its trailing fragment buffered, never parsed.  In fact the
handler splits each delivery one-shot: when the producer line `123\n`
arrives as the two chunks `12` and `3\n`, the fragment `12` is parsed and
stored at once, and the store ends at `3` — not at `123` as buffering
would give. -/
theorem fragment_parsed_as_line_cex :
    stdoutDataHandler initialLatest ("12") = Json.num 12 0 ∧
    stdoutDataHandler (stdoutDataHandler initialLatest ("12")) ("3\n") = Json.num 3 0 ∧
    Json.num 3 0 ≠ Json.num 123 0 := by
  refine ⟨rfl, rfl, fun h => ?_⟩
  injection h with h1 h2
  exact absurd h1 (by decide)

/-- C7 (amended): the stdout handler keeps no buffer between deliveries:
a delivery consisting of a single fragment with no newline is passed to
`JSON.parse` as if it were a complete line, and if it parses it replaces
the stored snapshot immediately. -/
theorem fragment_treated_complete (st : Json) (l : List Char) (j : Json)
    (hn : '\n' ∉ l) (hb : (trimL l).isEmpty = false) (hp : jsonParseL l = some j) :
    stdoutDataHandlerL st l = j := by
  rw [stdoutDataHandlerL, splitNl_no_nl l hn]
  simp [processLines, hb, hp]

/-- C7 (witness): the fragment `5` (no newline) is committed as a value. -/
theorem fragment_treated_complete_witness :
    ('\n' ∉ (("5".data) : List Char)) ∧
    stdoutDataHandlerL initialLatest ("5".data) = Json.num 5 0 :=
  ⟨by decide, fragment_treated_complete initialLatest _ _ (by decide) (by decide) (by rfl)⟩

/-- C8 (confirmed): one batched delivery holding two newline-terminated
well-formed JSON objects leaves the store in exactly the state of two
separate single-object deliveries. -/
theorem batch_equals_sequential (st : Json) (s1 s2 : List Char) (j1 j2 : Json)
    (hn1 : '\n' ∉ s1) (hn2 : '\n' ∉ s2)
    (hb1 : (trimL s1).isEmpty = false) (hb2 : (trimL s2).isEmpty = false)
    (hp1 : jsonParseL s1 = some j1) (hp2 : jsonParseL s2 = some j2) :
    stdoutDataHandlerL st (s1 ++ '\n' :: (s2 ++ ['\n'])) =
      stdoutDataHandlerL (stdoutDataHandlerL st (s1 ++ ['\n'])) (s2 ++ ['\n']) := by
  rw [handlerBatchTwo st s1 s2 j1 j2 hn1 hn2 hb1 hb2 hp1 hp2,
    handlerSingleNl st s1 j1 hn1 hb1 hp1, handlerSingleNl j1 s2 j2 hn2 hb2 hp2]

/-- C8 (witness): the two delivery patterns for `{"a":1}` and `{"a":2}`
agree. -/
theorem batch_equals_sequential_witness :
    ('\n' ∉ ("\x7b\"a\":2\x7d".data : List Char)) ∧
    stdoutDataHandlerL initialLatest
        ("\x7b\"a\":1\x7d".data ++ '\n' :: ("\x7b\"a\":2\x7d".data ++ ['\n'])) =
      stdoutDataHandlerL
        (stdoutDataHandlerL initialLatest ("\x7b\"a\":1\x7d".data ++ ['\n']))
        ("\x7b\"a\":2\x7d".data ++ ['\n']) :=
  ⟨by decide,
   batch_equals_sequential initialLatest _ _ (Json.obj [("a", Json.num 1 0)])
     (Json.obj [("a", Json.num 2 0)])
     (by decide) (by decide) (by decide) (by decide) (by rfl) (by rfl)⟩

/-! ## Claims C1, C5, C6, C10 about overrides and the display layer -/

/-- Example raw snapshot held by the store: sensors with temperature 20. -/
def exLatest : Json := .obj [("sensors", .obj [("temperature", .num 20 0)])]

/-- Example renderer override table: temperature overridden to 99. -/
def exJOv : JOverrides := ⟨some (.num 99 0), none, none, none⟩

/-- C5 (counterexample): the claim says the zero-argument query returns
the Effective State with overrides already merged in.  In fact the
`get-sensor-data` handler returns the raw `latestData` unmerged: with raw
temperature 20 and an active override of 99, the returned value still
carries 20, and differs from the merged effective state. -/
theorem query_returns_raw_cex :
    getSensorDataHandler exLatest = exLatest ∧
    applySensorOverridesJson exJOv (getSensorDataHandler exLatest)
      = Json.obj [("sensors", Json.obj [("temperature", Json.num 99 0)])] ∧
    applySensorOverridesJson exJOv (getSensorDataHandler exLatest)
      ≠ getSensorDataHandler exLatest := by
  refine ⟨rfl, rfl, fun h => ?_⟩
  have h' : Json.obj [("sensors", Json.obj [("temperature", Json.num 99 0)])]
      = Json.obj [("sensors", Json.obj [("temperature", Json.num 20 0)])] := h
  simp at h'

/-- C5 (amended): the zero-argument query returns the raw latest snapshot
exactly as parsed, with no overrides merged; the display layer itself
merges its local override table into the query result afterwards (second
`update`, lines 184-190), so only the rendered values are effective. -/
theorem query_raw_display_merges (st : Json) (ov : JOverrides) (s : List Char) (j : Json)
    (hn : '\n' ∉ s) (hb : (trimL s).isEmpty = false) (hp : jsonParseL s = some j) :
    getSensorDataHandler (stdoutDataHandlerL st (s ++ ['\n'])) = j ∧
    applySensorOverridesJson ov (getSensorDataHandler (stdoutDataHandlerL st (s ++ ['\n'])))
      = applySensorOverridesJson ov j := by
  have h1 : stdoutDataHandlerL st (s ++ ['\n']) = j := handlerSingleNl st s j hn hb hp
  exact ⟨h1, by rw [getSensorDataHandler, h1]⟩

/-- C5 (witness): ingesting a snapshot with temperature 20 and querying
under the override table of `exJOv`. -/
theorem query_raw_display_merges_witness :
    ('\n' ∉ ("\x7b\"sensors\":\x7b\"temperature\":20\x7d\x7d".data : List Char)) ∧
    (getSensorDataHandler
        (stdoutDataHandlerL initialLatest
          ("\x7b\"sensors\":\x7b\"temperature\":20\x7d\x7d".data ++ ['\n'])) = exLatest ∧
     applySensorOverridesJson exJOv
        (getSensorDataHandler
          (stdoutDataHandlerL initialLatest
            ("\x7b\"sensors\":\x7b\"temperature\":20\x7d\x7d".data ++ ['\n'])))
        = applySensorOverridesJson exJOv exLatest) :=
  ⟨by decide,
   query_raw_display_merges initialLatest exJOv _ exLatest (by decide) (by decide) (by rfl)⟩

/-- Example actuator block (all idle). -/
def exActs : Actuators :=
  ⟨.num 0, .num 0, .num 0, .num 0, .num 0, .num 0, .num 0, .num 0⟩

/-- Example snapshot passed to `updateDashboard`. -/
def exSnap : SnapData := ⟨⟨20, 40, 300, 450, "T1"⟩, exActs, []⟩

/-- Example renderer override table with temperature overridden to 99. -/
def exOv1 : Overrides := ⟨some 99, none, none, none⟩

/-- C1 (counterexample): the claim says applying overrides leaves every
field of the input snapshot at its pre-call value.  In fact
`updateDashboard` assigns the override into the input's sensors object
(`s.temperature = overrides.temperature`): with raw temperature 20 and an
override of 99, the input's temperature field reads 99 after the call. -/
theorem updateDashboard_mutates_input_cex :
    (updateDashboardData exOv1 exSnap).sensors.temperature = 99 ∧
    exSnap.sensors.temperature = 20 ∧ (99 : ℚ) ≠ 20 :=
  ⟨rfl, rfl, by norm_num⟩

/-- C1 (amended): applying overrides is deterministic (it is a function of
the snapshot and the override table), and it leaves the actuators, the
alerts and the timestamp untouched; but it overwrites the input snapshot's
sensor fields in place with the active override values — the effective
state *is* the mutated input, so an overridden sensor field of the input
no longer holds its pre-call raw value. -/
theorem updateDashboard_effective_frame (ov : Overrides) (d : SnapData) (v : ℚ)
    (h : ov.temperature = some v) :
    (updateDashboardData ov d).actuators = d.actuators ∧
    (updateDashboardData ov d).alerts = d.alerts ∧
    (updateDashboardData ov d).sensors.timestamp = d.sensors.timestamp ∧
    (updateDashboardData ov d).sensors.temperature = v := by
  simp [updateDashboardData, applySensorOverrides, h]

/-- C1 (witness): the frame and mutation facts at the example snapshot. -/
theorem updateDashboard_effective_frame_witness :
    exOv1.temperature = some 99 ∧
    ((updateDashboardData exOv1 exSnap).actuators = exSnap.actuators ∧
     (updateDashboardData exOv1 exSnap).alerts = exSnap.alerts ∧
     (updateDashboardData exOv1 exSnap).sensors.timestamp = exSnap.sensors.timestamp ∧
     (updateDashboardData exOv1 exSnap).sensors.temperature = 99) :=
  ⟨rfl, updateDashboard_effective_frame exOv1 exSnap 99 rfl⟩

/-- C6 (confirmed): with an active override the effective value is the
override value whatever the raw reading; without one it is the raw value;
clearing reverts to the raw value; a new override replaces the previous
one; clearing (entry `null`) is distinct from overriding with zero (entry
`0`, which forces the effective value to 0); and the actuators and alerts
are never overridden. -/
theorem override_effective_semantics (ov : Overrides) (s : Sensors) (d : SnapData)
    (ty : SensorName) (v w : ℚ) (hnone : ovVal ov ty = none) :
    sensorVal (applySensorOverrides (applyOverride ov ty v) s) ty = v ∧
    sensorVal (applySensorOverrides (resetOverride ov ty) s) ty = sensorVal s ty ∧
    sensorVal (applySensorOverrides ov s) ty = sensorVal s ty ∧
    applyOverride (applyOverride ov ty w) ty v = applyOverride ov ty v ∧
    ovVal (resetOverride ov ty) ty = none ∧
    ovVal (applyOverride ov ty 0) ty = some 0 ∧
    sensorVal (applySensorOverrides (applyOverride ov ty 0) s) ty = 0 ∧
    (updateDashboardData ov d).actuators = d.actuators ∧
    (updateDashboardData ov d).alerts = d.alerts := by
  cases ty <;>
    simp_all [applyOverride, resetOverride, ovVal, sensorVal, applySensorOverrides,
      updateDashboardData]

/-- C6 (witness): overriding temperature to 99 on a snapshot whose raw
temperature is 20 makes the effective temperature 99. -/
theorem override_effective_semantics_witness :
    ovVal ⟨none, some 5, none, none⟩ SensorName.temperature = none ∧
    sensorVal
      (applySensorOverrides
        (applyOverride ⟨none, some 5, none, none⟩ SensorName.temperature 99)
        ⟨20, 40, 300, 450, "T1"⟩)
      SensorName.temperature = 99 :=
  ⟨rfl,
   (override_effective_semantics ⟨none, some 5, none, none⟩ ⟨20, 40, 300, 450, "T1"⟩
     ⟨⟨20, 40, 300, 450, "T1"⟩,
      ⟨.num 0, .num 0, .num 0, .num 0, .num 0, .num 0, .num 0, .num 0⟩, []⟩
     SensorName.temperature 99 7 rfl).1⟩

/-- C10 (confirmed): for a numeric value the status is HIGH POWER exactly
when v > 40, LOW POWER exactly when 0 < v ≤ 40 and idle otherwise, with
the gauge at v percent; non-numeric non-string values coerce to 0; the
label HIGH gives a 100% gauge, LOW a 40% gauge, and any other string
(such as OFF) a 0% gauge with idle status. -/
theorem setActuator_spec (v : ℚ) (s : String) (hh : s ≠ "HIGH") (hl : s ≠ "LOW") :
    ((setActuator (.num v)).statusText = "⚙️ HIGH POWER" ↔ 40 < v) ∧
    ((setActuator (.num v)).statusText = "⚙️ LOW POWER" ↔ (0 < v ∧ v ≤ 40)) ∧
    ((setActuator (.num v)).statusClass = "status idle" ↔ v ≤ 0) ∧
    ((setActuator (.num v)).statusText = "✅" ↔ v ≤ 0) ∧
    (setActuator (.num v)).gaugeWidthPct = v ∧
    setActuator .nul = setActuator (.num 0) ∧
    setActuator .undef = setActuator (.num 0) ∧
    (∀ b, setActuator (.boolean b) = setActuator (.num 0)) ∧
    setActuator (.str "HIGH") = ⟨"⚙️ HIGH POWER", "status active", 100⟩ ∧
    setActuator (.str "LOW") = ⟨"⚙️ LOW POWER", "status active", 40⟩ ∧
    setActuator (.str s) = ⟨"✅", "status idle", 0⟩ := by
  and_intros
  · by_cases h40 : (40 : ℚ) < v
    · simp [setActuator, h40]
    · by_cases h0 : (0 : ℚ) < v <;> simp [setActuator, h40, h0]
  · by_cases h40 : (40 : ℚ) < v
    · have hle : ¬ v ≤ 40 := not_le.mpr h40
      simp [setActuator, h40, hle]
    · by_cases h0 : (0 : ℚ) < v
      · have hle : v ≤ 40 := not_lt.mp h40
        simp [setActuator, h40, h0, hle]
      · simp [setActuator, h40, h0]
  · by_cases h40 : (40 : ℚ) < v
    · have h0 : ¬ v ≤ 0 := not_le.mpr (lt_trans (by norm_num) h40)
      simp [setActuator, h40, h0]
    · by_cases h0 : (0 : ℚ) < v
      · have hle : ¬ v ≤ 0 := not_le.mpr h0
        simp [setActuator, h40, h0, hle]
      · have hle : v ≤ 0 := not_lt.mp h0
        simp [setActuator, h40, h0, hle]
  · by_cases h40 : (40 : ℚ) < v
    · have h0 : ¬ v ≤ 0 := not_le.mpr (lt_trans (by norm_num) h40)
      simp [setActuator, h40, h0]
    · by_cases h0 : (0 : ℚ) < v
      · have hle : ¬ v ≤ 0 := not_le.mpr h0
        simp [setActuator, h40, h0, hle]
      · have hle : v ≤ 0 := not_lt.mp h0
        simp [setActuator, h40, h0, hle]
  · by_cases h40 : (40 : ℚ) < v <;> by_cases h0 : (0 : ℚ) < v <;>
      simp [setActuator, h40, h0]
  · decide
  · decide
  · intro b; cases b <;> decide
  · decide
  · decide
  · simp [setActuator, hh, hl]

/-- C10 (witness): a 50% heater reads HIGH POWER. -/
theorem setActuator_spec_witness :
    (("OFF" : String) ≠ "HIGH") ∧ (setActuator (.num 50)).statusText = "⚙️ HIGH POWER" :=
  ⟨by decide, ((setActuator_spec 50 "OFF" (by decide) (by decide)).1).mpr (by norm_num)⟩

/-! ## Round-trip lemmas: the serialized command lines parse back (C9) -/

theorem parseStringBody_escape (cs rest : List Char) :
    parseStringBody (escapeChars cs ++ '"' :: rest) = some (cs, rest) := by
  induction cs with
  | nil => rfl
  | cons c cs ih =>
    by_cases h1 : c = '"'
    · subst h1
      show parseStringBodyAux false ('\\' :: '"' :: (escapeChars cs ++ '"' :: rest))
        = some ('"' :: cs, rest)
      conv_lhs => whnf
      rw [show parseStringBodyAux false (escapeChars cs ++ '"' :: rest) = some (cs, rest) from ih]
    · by_cases h2 : c = '\\'
      · subst h2
        show parseStringBodyAux false ('\\' :: '\\' :: (escapeChars cs ++ '"' :: rest))
          = some ('\\' :: cs, rest)
        conv_lhs => whnf
        rw [show parseStringBodyAux false (escapeChars cs ++ '"' :: rest) = some (cs, rest) from ih]
      · by_cases h3 : c = '\n'
        · subst h3
          show parseStringBodyAux false ('\\' :: 'n' :: (escapeChars cs ++ '"' :: rest))
            = some ('\n' :: cs, rest)
          conv_lhs => whnf
          rw [show parseStringBodyAux false (escapeChars cs ++ '"' :: rest) = some (cs, rest) from ih]
        · by_cases h4 : c = '\t'
          · subst h4
            show parseStringBodyAux false ('\\' :: 't' :: (escapeChars cs ++ '"' :: rest))
              = some ('\t' :: cs, rest)
            conv_lhs => whnf
            rw [show parseStringBodyAux false (escapeChars cs ++ '"' :: rest) = some (cs, rest) from ih]
          · by_cases h5 : c = '\r'
            · subst h5
              show parseStringBodyAux false ('\\' :: 'r' :: (escapeChars cs ++ '"' :: rest))
                = some ('\r' :: cs, rest)
              conv_lhs => whnf
              rw [show parseStringBodyAux false (escapeChars cs ++ '"' :: rest) = some (cs, rest) from ih]
            · have he : escapeChars (c :: cs) = c :: escapeChars cs := by
                show escapeChar c ++ escapeChars cs = c :: escapeChars cs
                rw [show escapeChar c = [c] from by
                  simp [escapeChar, h1, h2, h3, h4, h5]]
                rfl
              rw [he]
              show parseStringBodyAux false (c :: (escapeChars cs ++ '"' :: rest))
                = some (c :: cs, rest)
              simp only [parseStringBodyAux]
              rw [if_neg h1, if_neg h2,
                show parseStringBodyAux false (escapeChars cs ++ '"' :: rest) = some (cs, rest)
                  from ih]

theorem digitsLoop_spec : ∀ fuel n acc, n ≤ fuel →
    digitsLoop fuel n acc = ((Nat.digits 10 n).map digitChar).reverse ++ acc := by
  intro fuel
  induction fuel with
  | zero =>
    intro n acc h
    interval_cases n
    simp [digitsLoop]
  | succ fuel ih =>
    intro n acc h
    by_cases hn : n = 0
    · subst hn; simp [digitsLoop]
    · have hlt : n / 10 ≤ fuel := by
        have : n / 10 < n := Nat.div_lt_self (Nat.pos_of_ne_zero hn) (by norm_num)
        omega
      rw [digitsLoop, if_neg hn, ih (n / 10) _ hlt,
        Nat.digits_def' (by norm_num : (1 : ℕ) < 10) (Nat.pos_of_ne_zero hn)]
      simp [List.append_assoc]

theorem natDigitsBE_eq (n : Nat) (hn : n ≠ 0) :
    natDigitsBE n = ((Nat.digits 10 n).map digitChar).reverse := by
  rw [natDigitsBE, if_neg hn, digitsLoop_spec (n + 1) n [] (by omega)]
  simp

theorem natDigitsBE_ne_nil (n : Nat) : natDigitsBE n ≠ [] := by
  by_cases hn : n = 0
  · subst hn; simp [natDigitsBE]
  · rw [natDigitsBE_eq n hn]
    simp [Nat.digits_eq_nil_iff_eq_zero, hn]

theorem digitChar_isDigit (d : Nat) (h : d < 10) : (digitChar d).isDigit = true := by
  interval_cases d <;> decide

theorem digitChar_toNat (d : Nat) (h : d < 10) : (digitChar d).toNat - 48 = d := by
  interval_cases d <;> decide

theorem natDigitsBE_isDigit (n : Nat) : ∀ c ∈ natDigitsBE n, c.isDigit = true := by
  by_cases hn : n = 0
  · subst hn
    intro c hc
    simp [natDigitsBE] at hc
    subst hc; decide
  · rw [natDigitsBE_eq n hn]
    intro c hc
    simp only [List.mem_reverse, List.mem_map] at hc
    obtain ⟨d, hd, rfl⟩ := hc
    exact digitChar_isDigit d (Nat.digits_lt_base (by norm_num) hd)

theorem digitsVal_acc (L : List Char) : ∀ a : Nat,
    List.foldl (fun a c => 10 * a + (c.toNat - 48)) a L
      = a * 10 ^ L.length + digitsVal L := by
  induction L with
  | nil => intro a; simp [digitsVal]
  | cons c L ih =>
    intro a
    have h1 := ih (10 * a + (c.toNat - 48))
    have h2 := ih (10 * 0 + (c.toNat - 48))
    simp only [digitsVal, List.foldl_cons] at *
    rw [h1, h2]
    simp [List.length_cons, pow_succ]
    ring

theorem digitsVal_append (A B : List Char) :
    digitsVal (A ++ B) = digitsVal A * 10 ^ B.length + digitsVal B := by
  rw [digitsVal, List.foldl_append, ← digitsVal, digitsVal_acc]

theorem digitsVal_rev_map (L : List Nat) (h : ∀ d ∈ L, d < 10) :
    digitsVal ((L.map digitChar).reverse) = Nat.ofDigits 10 L := by
  induction L with
  | nil => simp [digitsVal, Nat.ofDigits]
  | cons d L ih =>
    have hd : d < 10 := h d (List.mem_cons_self d L)
    have hL : ∀ x ∈ L, x < 10 := fun x hx => h x (List.mem_cons_of_mem d hx)
    simp only [List.map_cons, List.reverse_cons]
    rw [digitsVal_append, ih hL, Nat.ofDigits_cons]
    have hone : digitsVal [digitChar d] = d := by
      simp [digitsVal, digitChar_toNat d hd]
    rw [hone]
    simp
    ring

theorem digitsVal_natDigitsBE (n : Nat) : digitsVal (natDigitsBE n) = n := by
  by_cases hn : n = 0
  · subst hn; rfl
  · rw [natDigitsBE_eq n hn,
      digitsVal_rev_map _ (fun d hd => Nat.digits_lt_base (by norm_num) hd),
      Nat.ofDigits_digits]

theorem digitsVal_replicate (k : Nat) : digitsVal (List.replicate k '0') = 0 := by
  induction k with
  | zero => rfl
  | succ k ih =>
    have h : digitsVal (List.replicate (k + 1) '0') = digitsVal (List.replicate k '0') := rfl
    rw [h, ih]

theorem spanDigits_append (A B : List Char) (hA : ∀ c ∈ A, c.isDigit = true)
    (hB : ∀ c ∈ B.head?, c.isDigit = false) :
    spanDigits (A ++ B) = (A, B) := by
  induction A with
  | nil =>
    simp only [List.nil_append]
    cases B with
    | nil => rfl
    | cons b B2 =>
      have hb : b.isDigit = false := hB b (by simp)
      simp [spanDigits, hb]
  | cons a A ih =>
    have ha : a.isDigit = true := hA a (List.mem_cons_self a A)
    have hA2 : ∀ c ∈ A, c.isDigit = true := fun c hc => hA c (List.mem_cons_of_mem a hc)
    simp [spanDigits, ha, ih hA2]

theorem isDigit_not_ws (c : Char) (h : c.isDigit = true) : isWs c = false := by
  cases hw : isWs c
  · rfl
  · exfalso
    simp only [isWs, Bool.or_eq_true, beq_iff_eq] at hw
    rcases hw with ((h1 | h1) | h1) | h1 <;> (subst h1; exact absurd h (by decide))

theorem ne_of_isDigit (c x : Char) (h : c.isDigit = true) (hx : x.isDigit = false) :
    c ≠ x := by
  intro he; subst he; rw [h] at hx; cases hx

theorem skipWs_cons_false (c : Char) (r : List Char) (h : isWs c = false) :
    skipWs (c :: r) = c :: r := by
  simp [skipWs, h]

theorem parsePosNum_split (A B : List Char) (hA : ∀ c ∈ A, c.isDigit = true)
    (hB : ∀ c ∈ B.head?, c.isDigit = false) (hne : A ≠ [])
    (hdot : ∀ c ∈ B.head?, c ≠ '.') :
    parsePosNum (A ++ B) = some (digitsVal A, 0, B) := by
  have hspan := spanDigits_append A B hA hB
  have hAe : A.isEmpty = false := by
    cases A
    · exact absurd rfl hne
    · rfl
  simp only [parsePosNum, hspan, hAe]
  cases B with
  | nil => rfl
  | cons b B2 =>
    have hb : b ≠ '.' := hdot b (by simp)
    simp [hb]

theorem parsePosNum_split_frac (A B rest : List Char)
    (hA : ∀ c ∈ A, c.isDigit = true) (hB : ∀ c ∈ B, c.isDigit = true)
    (hAne : A ≠ []) (hBne : B ≠ [])
    (hrest : ∀ c ∈ rest.head?, c.isDigit = false) :
    parsePosNum (A ++ '.' :: (B ++ rest))
      = some (digitsVal A * 10 ^ B.length + digitsVal B, B.length, rest) := by
  have hs1 := spanDigits_append A ('.' :: (B ++ rest)) hA
    (by intro c hc; simp at hc; subst hc; decide)
  have hs2 := spanDigits_append B rest hB hrest
  have hAe : A.isEmpty = false := by
    cases A
    · exact absurd rfl hAne
    · rfl
  have hBe : B.isEmpty = false := by
    cases B
    · exact absurd rfl hBne
    · rfl
  simp only [parsePosNum, hs1, hAe]
  simp [hs2, hBe]

theorem paddedDigits_isDigit (n e : Nat) :
    ∀ c ∈ paddedDigits n e, c.isDigit = true := by
  intro c hc
  rcases List.mem_append.mp hc with h | h
  · rw [List.eq_of_mem_replicate h]; decide
  · exact natDigitsBE_isDigit n c h

theorem paddedDigits_len (n e : Nat) : e + 1 ≤ (paddedDigits n e).length := by
  have hds : (natDigitsBE n).length ≥ 1 :=
    List.length_pos.mpr (natDigitsBE_ne_nil n)
  rw [paddedDigits, List.length_append, List.length_replicate]
  omega

theorem paddedDigits_val (n e : Nat) : digitsVal (paddedDigits n e) = n := by
  rw [paddedDigits, digitsVal_append, digitsVal_replicate, digitsVal_natDigitsBE]
  simp

theorem parsePosNum_posChars (n e : Nat) (rest : List Char)
    (h1 : ∀ c ∈ rest.head?, c.isDigit = false) (h2 : ∀ c ∈ rest.head?, c ≠ '.') :
    parsePosNum (posChars n e ++ rest) = some (n, e, rest) := by
  by_cases he : e = 0
  · subst he
    show parsePosNum (natDigitsBE n ++ rest) = some (n, 0, rest)
    rw [parsePosNum_split (natDigitsBE n) rest (natDigitsBE_isDigit n) h1
      (natDigitsBE_ne_nil n) h2, digitsVal_natDigitsBE]
  · have hlen := paddedDigits_len n e
    have hTd : ∀ c ∈ (paddedDigits n e).take ((paddedDigits n e).length - e),
        c.isDigit = true :=
      fun c hc => paddedDigits_isDigit n e c (List.take_subset _ _ hc)
    have hDd : ∀ c ∈ (paddedDigits n e).drop ((paddedDigits n e).length - e),
        c.isDigit = true :=
      fun c hc => paddedDigits_isDigit n e c (List.drop_subset _ _ hc)
    have hTlen : ((paddedDigits n e).take ((paddedDigits n e).length - e)).length
        = (paddedDigits n e).length - e := by
      rw [List.length_take]; omega
    have hTne : (paddedDigits n e).take ((paddedDigits n e).length - e) ≠ [] := by
      intro hnil
      rw [hnil] at hTlen
      simp at hTlen
      omega
    have hDlen : ((paddedDigits n e).drop ((paddedDigits n e).length - e)).length = e := by
      rw [List.length_drop]; omega
    have hDne : (paddedDigits n e).drop ((paddedDigits n e).length - e) ≠ [] := by
      intro hnil
      rw [hnil] at hDlen
      simp at hDlen
      omega
    have hshape : posChars n e ++ rest
        = (paddedDigits n e).take ((paddedDigits n e).length - e)
          ++ '.' :: ((paddedDigits n e).drop ((paddedDigits n e).length - e) ++ rest) := by
      rw [posChars, if_neg he]
      simp [List.append_assoc]
    rw [hshape, parsePosNum_split_frac _ _ rest hTd hDd hTne hDne h1, hDlen]
    have h10 : digitsVal ((paddedDigits n e).take ((paddedDigits n e).length - e))
          * 10 ^ ((paddedDigits n e).drop ((paddedDigits n e).length - e)).length
        + digitsVal ((paddedDigits n e).drop ((paddedDigits n e).length - e))
        = digitsVal (paddedDigits n e) := by
      rw [← digitsVal_append, List.take_append_drop]
    rw [hDlen] at h10
    rw [h10, paddedDigits_val]

theorem posChars_cons (n e : Nat) :
    ∃ c t, posChars n e = c :: t ∧ c.isDigit = true := by
  by_cases he : e = 0
  · subst he
    show ∃ c t, natDigitsBE n = c :: t ∧ c.isDigit = true
    cases h : natDigitsBE n with
    | nil => exact absurd h (natDigitsBE_ne_nil n)
    | cons c t =>
      exact ⟨c, t, rfl, natDigitsBE_isDigit n c (h ▸ List.mem_cons_self c t)⟩
  · have hlen := paddedDigits_len n e
    have hTlen : ((paddedDigits n e).take ((paddedDigits n e).length - e)).length
        = (paddedDigits n e).length - e := by
      rw [List.length_take]; omega
    rw [posChars, if_neg he]
    cases h : (paddedDigits n e).take ((paddedDigits n e).length - e) with
    | nil =>
      rw [h] at hTlen
      simp at hTlen
      omega
    | cons c t =>
      refine ⟨c, t ++ '.' :: (paddedDigits n e).drop ((paddedDigits n e).length - e),
        by simp [h], ?_⟩
      have hc : c ∈ (paddedDigits n e).take ((paddedDigits n e).length - e) :=
        h ▸ List.mem_cons_self c t
      exact paddedDigits_isDigit n e c (List.take_subset _ _ hc)

theorem parseNumber_numChars (m : Int) (e : Nat) (rest : List Char)
    (h1 : ∀ c ∈ rest.head?, c.isDigit = false) (h2 : ∀ c ∈ rest.head?, c ≠ '.') :
    parseNumber (numChars m e ++ rest) = some (.num m e, rest) := by
  by_cases hm : m < 0
  · have hsh : numChars m e ++ rest = '-' :: (posChars m.natAbs e ++ rest) := by
      rw [numChars, if_pos hm]
      simp
    rw [hsh]
    conv_lhs => whnf
    rw [parsePosNum_posChars m.natAbs e rest h1 h2]
    show some (Json.num (-(m.natAbs : Int)) e, rest) = some (Json.num m e, rest)
    rw [show -((m.natAbs : Nat) : Int) = m from by omega]
  · obtain ⟨c, t, hct, hcd⟩ := posChars_cons m.natAbs e
    have hsh : numChars m e ++ rest = c :: (t ++ rest) := by
      rw [numChars, if_neg hm]
      simp [hct]
    have hcm : c ≠ '-' := ne_of_isDigit c '-' hcd (by decide)
    rw [hsh]
    simp only [parseNumber, if_neg hcm]
    rw [show c :: (t ++ rest) = posChars m.natAbs e ++ rest from by simp [hct]]
    rw [parsePosNum_posChars m.natAbs e rest h1 h2]
    show some (Json.num ((m.natAbs : Nat) : Int) e, rest) = some (Json.num m e, rest)
    rw [show ((m.natAbs : Nat) : Int) = m from by omega]

theorem pvCore_default (f : Nat) (c : Char) (r : List Char)
    (h1 : c ≠ 'n') (h2 : c ≠ 't') (h3 : c ≠ 'f') (h4 : c ≠ '"') (h5 : c ≠ '[')
    (h6 : c ≠ '\x7b') :
    pvCore (f + 1) (c :: r) = parseNumber (c :: r) := by
  simp only [pvCore]
  rw [if_neg h1, if_neg h2, if_neg h3, if_neg h4, if_neg h5, if_neg h6]

theorem parseVal_numChars (f : Nat) (m : Int) (e : Nat) (rest : List Char)
    (h1 : ∀ c ∈ rest.head?, c.isDigit = false) (h2 : ∀ c ∈ rest.head?, c ≠ '.') :
    parseVal (f + 2) (numChars m e ++ rest) = some (.num m e, rest) := by
  by_cases hm : m < 0
  · have hsh : numChars m e ++ rest = '-' :: (posChars m.natAbs e ++ rest) := by
      rw [numChars, if_pos hm]
      simp
    rw [hsh, show parseVal (f + 2) ('-' :: (posChars m.natAbs e ++ rest))
        = pvCore (f + 1) (skipWs ('-' :: (posChars m.natAbs e ++ rest))) from rfl,
      skipWs_cons_false _ _ (by decide),
      pvCore_default f _ _ (by decide) (by decide) (by decide) (by decide) (by decide)
        (by decide),
      ← hsh, parseNumber_numChars m e rest h1 h2]
  · obtain ⟨c, t, hct, hcd⟩ := posChars_cons m.natAbs e
    have hsh : numChars m e ++ rest = c :: (t ++ rest) := by
      rw [numChars, if_neg hm]
      simp [hct]
    rw [hsh, show parseVal (f + 2) (c :: (t ++ rest))
        = pvCore (f + 1) (skipWs (c :: (t ++ rest))) from rfl,
      skipWs_cons_false _ _ (isDigit_not_ws c hcd),
      pvCore_default f _ _ (ne_of_isDigit c 'n' hcd (by decide))
        (ne_of_isDigit c 't' hcd (by decide)) (ne_of_isDigit c 'f' hcd (by decide))
        (ne_of_isDigit c '"' hcd (by decide)) (ne_of_isDigit c '[' hcd (by decide))
        (ne_of_isDigit c '\x7b' hcd (by decide)),
      ← hsh, parseNumber_numChars m e rest h1 h2]

theorem parseVal_strLit (f g : Nat) (hf : f = g + 2) (s : String) (rest : List Char) :
    parseVal f ('"' :: (escapeChars s.data ++ '"' :: rest)) = some (.str s, rest) := by
  subst hf
  conv_lhs => whnf
  rw [show parseStringBody (escapeChars s.data ++ '"' :: rest) = some (s.data, rest)
    from parseStringBody_escape s.data rest]

theorem parseMembers_key (f g : Nat) (hf : f = g + 1) (K rest : List Char) :
    parseMembers f ('"' :: (escapeChars K ++ '"' :: rest)) = pmAfterKey g K rest := by
  subst hf
  conv_lhs => whnf
  rw [show parseStringBody (escapeChars K ++ '"' :: rest) = some (K, rest)
    from parseStringBody_escape K rest]

theorem pmAfterKey_colon (f g : Nat) (hf : f = g + 1) (K r : List Char) :
    pmAfterKey f K (':' :: r) = pmAfterColon g K r := by
  subst hf; rfl

theorem pmAfterColon_some (f g : Nat) (hf : f = g + 1) (K r : List Char) (v : Json)
    (r4 : List Char) (h : parseVal g r = some (v, r4)) :
    pmAfterColon f K r = pmAfterVal g K v r4 := by
  subst hf
  conv_lhs => whnf
  rw [h]

theorem pmAfterVal_comma_some (f g : Nat) (hf : f = g + 1) (K : List Char) (v : Json)
    (rest : List Char) (fs : List (String × Json)) (r6 : List Char)
    (h : parseMembers g rest = some (fs, r6)) :
    pmAfterVal f K v (',' :: rest) = some ((⟨K⟩, v) :: fs, r6) := by
  subst hf
  conv_lhs => whnf
  rw [h]

theorem pmAfterVal_close (f g : Nat) (hf : f = g + 1) (K : List Char) (v : Json)
    (rest : List Char) :
    pmAfterVal f K v ('\x7d' :: rest) = some ([(⟨K⟩, v)], rest) := by
  subst hf; rfl

theorem pv_obj_some (f g : Nat) (hf : f = g + 3) (T : List Char)
    (fs : List (String × Json)) (r3 : List Char)
    (h : parseMembers g ('"' :: T) = some (fs, r3)) :
    parseVal f ('\x7b' :: '"' :: T) = some (.obj fs, r3) := by
  subst hf
  conv_lhs => whnf
  rw [h]

theorem overrideCmd_chars (sensor : String) (m : Int) (e : Nat) :
    jsonStringifyChars (overrideCmd sensor m e)
      = '\x7b' :: '"' :: (escapeChars ("type".data)
        ++ '"' :: ':' :: '"' :: (escapeChars ("override".data)
        ++ '"' :: ',' :: '"' :: (escapeChars ("sensor".data)
        ++ '"' :: ':' :: '"' :: (escapeChars sensor.data
        ++ '"' :: ',' :: '"' :: (escapeChars ("value".data)
        ++ '"' :: ':' :: (numChars m e ++ ['\x7d'])))))) := by
  simp [overrideCmd, jsonStringifyChars, membersChars, List.append_assoc]

theorem clearCmd_chars (sensor : String) :
    jsonStringifyChars (clearCmd sensor)
      = '\x7b' :: '"' :: (escapeChars ("type".data)
        ++ '"' :: ':' :: '"' :: (escapeChars ("clear_override".data)
        ++ '"' :: ',' :: '"' :: (escapeChars ("sensor".data)
        ++ '"' :: ':' :: '"' :: (escapeChars sensor.data ++ '"' :: ['\x7d'])))) := by
  simp [clearCmd, jsonStringifyChars, membersChars, List.append_assoc]

theorem parseVal_overrideCmd (f : Nat) (sensor : String) (m : Int) (e : Nat) :
    parseVal (f + 16) (jsonStringifyChars (overrideCmd sensor m e))
      = some (overrideCmd sensor m e, []) := by
  have hval : parseVal (f + 2) (numChars m e ++ ['\x7d']) = some (.num m e, ['\x7d']) :=
    parseVal_numChars f m e ['\x7d']
      (by intro c hc; simp at hc; subst hc; decide)
      (by intro c hc; simp at hc; subst hc; decide)
  have h3 : parseMembers (f + 5)
      ('"' :: (escapeChars ("value".data) ++ '"' :: ':' :: (numChars m e ++ ['\x7d'])))
      = some ([("value", Json.num m e)], []) := by
    rw [parseMembers_key (f + 5) (f + 4) rfl, pmAfterKey_colon (f + 4) (f + 3) rfl,
      pmAfterColon_some (f + 3) (f + 2) rfl _ _ _ _ hval]
    exact pmAfterVal_close (f + 2) (f + 1) rfl _ _ _
  have h2 : parseMembers (f + 9)
      ('"' :: (escapeChars ("sensor".data) ++ '"' :: ':' :: '"' :: (escapeChars sensor.data
        ++ '"' :: ',' :: '"' :: (escapeChars ("value".data)
        ++ '"' :: ':' :: (numChars m e ++ ['\x7d'])))))
      = some ([("sensor", Json.str sensor), ("value", Json.num m e)], []) := by
    rw [parseMembers_key (f + 9) (f + 8) rfl, pmAfterKey_colon (f + 8) (f + 7) rfl,
      pmAfterColon_some (f + 7) (f + 6) rfl _ _ _ _
        (parseVal_strLit (f + 6) (f + 4) rfl sensor _)]
    exact pmAfterVal_comma_some (f + 6) (f + 5) rfl _ _ _ _ _ h3
  have h1 : parseMembers (f + 13)
      ('"' :: (escapeChars ("type".data) ++ '"' :: ':' :: '"' :: (escapeChars ("override".data)
        ++ '"' :: ',' :: '"' :: (escapeChars ("sensor".data)
        ++ '"' :: ':' :: '"' :: (escapeChars sensor.data
        ++ '"' :: ',' :: '"' :: (escapeChars ("value".data)
        ++ '"' :: ':' :: (numChars m e ++ ['\x7d'])))))))
      = some ([("type", Json.str "override"), ("sensor", Json.str sensor),
          ("value", Json.num m e)], []) := by
    rw [parseMembers_key (f + 13) (f + 12) rfl, pmAfterKey_colon (f + 12) (f + 11) rfl,
      pmAfterColon_some (f + 11) (f + 10) rfl _ _ _ _
        (parseVal_strLit (f + 10) (f + 8) rfl "override" _)]
    exact pmAfterVal_comma_some (f + 10) (f + 9) rfl _ _ _ _ _ h2
  rw [overrideCmd_chars sensor m e]
  exact pv_obj_some (f + 16) (f + 13) rfl _ _ _ h1

theorem parseVal_clearCmd (f : Nat) (sensor : String) :
    parseVal (f + 12) (jsonStringifyChars (clearCmd sensor))
      = some (clearCmd sensor, []) := by
  have h2 : parseMembers (f + 5)
      ('"' :: (escapeChars ("sensor".data) ++ '"' :: ':' :: '"' :: (escapeChars sensor.data
        ++ '"' :: ['\x7d'])))
      = some ([("sensor", Json.str sensor)], []) := by
    rw [parseMembers_key (f + 5) (f + 4) rfl, pmAfterKey_colon (f + 4) (f + 3) rfl,
      pmAfterColon_some (f + 3) (f + 2) rfl _ _ _ _
        (parseVal_strLit (f + 2) f rfl sensor _)]
    exact pmAfterVal_close (f + 2) (f + 1) rfl _ _ _
  have h1 : parseMembers (f + 9)
      ('"' :: (escapeChars ("type".data)
        ++ '"' :: ':' :: '"' :: (escapeChars ("clear_override".data)
        ++ '"' :: ',' :: '"' :: (escapeChars ("sensor".data)
        ++ '"' :: ':' :: '"' :: (escapeChars sensor.data ++ '"' :: ['\x7d'])))))
      = some ([("type", Json.str "clear_override"), ("sensor", Json.str sensor)], []) := by
    rw [parseMembers_key (f + 9) (f + 8) rfl, pmAfterKey_colon (f + 8) (f + 7) rfl,
      pmAfterColon_some (f + 7) (f + 6) rfl _ _ _ _
        (parseVal_strLit (f + 6) (f + 4) rfl "clear_override" _)]
    exact pmAfterVal_comma_some (f + 6) (f + 5) rfl _ _ _ _ _ h2
  rw [clearCmd_chars sensor]
  exact pv_obj_some (f + 12) (f + 9) rfl _ _ _ h1

theorem jsonParse_overrideCmd (sensor : String) (m : Int) (e : Nat) :
    jsonParse (jsonStringify (overrideCmd sensor m e)) = some (overrideCmd sensor m e) := by
  have hlen : 1 ≤ (jsonStringifyChars (overrideCmd sensor m e)).length := by
    rw [overrideCmd_chars]
    simp
  show jsonParseL (jsonStringifyChars (overrideCmd sensor m e)) = _
  simp only [jsonParseL]
  rw [show 8 * (jsonStringifyChars (overrideCmd sensor m e)).length + 8
      = (8 * (jsonStringifyChars (overrideCmd sensor m e)).length - 8) + 16 from by omega]
  rw [parseVal_overrideCmd _ sensor m e]
  rfl

theorem jsonParse_clearCmd (sensor : String) :
    jsonParse (jsonStringify (clearCmd sensor)) = some (clearCmd sensor) := by
  have hlen : 1 ≤ (jsonStringifyChars (clearCmd sensor)).length := by
    rw [clearCmd_chars]
    simp
  show jsonParseL (jsonStringifyChars (clearCmd sensor)) = _
  simp only [jsonParseL]
  rw [show 8 * (jsonStringifyChars (clearCmd sensor)).length + 8
      = (8 * (jsonStringifyChars (clearCmd sensor)).length - 4) + 12 from by omega]
  rw [parseVal_clearCmd _ sensor]
  rfl

theorem notMem_cons {a c : Char} {l : List Char} (h1 : a ≠ c) (h2 : a ∉ l) :
    a ∉ c :: l := by
  intro h
  rcases List.mem_cons.mp h with h | h
  · exact h1 h
  · exact h2 h

theorem notMem_append {a : Char} {l1 l2 : List Char} (h1 : a ∉ l1) (h2 : a ∉ l2) :
    a ∉ l1 ++ l2 := by
  intro h
  rcases List.mem_append.mp h with h | h
  · exact h1 h
  · exact h2 h

theorem nlNotMem_escapeChars (s : List Char) : '\n' ∉ escapeChars s := by
  induction s with
  | nil => simp [escapeChars]
  | cons c cs ih =>
    simp only [escapeChars]
    refine notMem_append ?_ ih
    by_cases h1 : c = '"'
    · subst h1; decide
    · by_cases h2 : c = '\\'
      · subst h2; decide
      · by_cases h3 : c = '\n'
        · subst h3; decide
        · by_cases h4 : c = '\t'
          · subst h4; decide
          · by_cases h5 : c = '\r'
            · subst h5; decide
            · rw [show escapeChar c = [c] from by simp [escapeChar, h1, h2, h3, h4, h5]]
              intro h
              simp at h
              exact h3 h.symm

theorem nlNotMem_posChars (n e : Nat) : '\n' ∉ posChars n e := by
  intro h
  by_cases he : e = 0
  · subst he
    exact absurd (natDigitsBE_isDigit n '\n' h) (by decide)
  · rw [posChars, if_neg he] at h
    rcases List.mem_append.mp h with h | h
    · exact absurd (paddedDigits_isDigit _ _ _ (List.take_subset _ _ h)) (by decide)
    · rcases List.mem_cons.mp h with h | h
      · exact absurd h (by decide)
      · exact absurd (paddedDigits_isDigit _ _ _ (List.drop_subset _ _ h)) (by decide)

theorem nlNotMem_numChars (m : Int) (e : Nat) : '\n' ∉ numChars m e := by
  rw [numChars]
  refine notMem_append ?_ (nlNotMem_posChars m.natAbs e)
  by_cases hm : m < 0
  · rw [if_pos hm]; decide
  · rw [if_neg hm]; simp

theorem nlNotMem_overrideCmd (sensor : String) (m : Int) (e : Nat) :
    '\n' ∉ (jsonStringify (overrideCmd sensor m e)).data := by
  show '\n' ∉ jsonStringifyChars (overrideCmd sensor m e)
  rw [overrideCmd_chars]
  repeat
    first
    | exact nlNotMem_escapeChars _
    | exact nlNotMem_numChars m e
    | exact List.not_mem_nil _
    | apply notMem_append
    | apply notMem_cons (by decide)

theorem nlNotMem_clearCmd (sensor : String) :
    '\n' ∉ (jsonStringify (clearCmd sensor)).data := by
  show '\n' ∉ jsonStringifyChars (clearCmd sensor)
  rw [clearCmd_chars]
  repeat
    first
    | exact nlNotMem_escapeChars _
    | exact List.not_mem_nil _
    | apply notMem_append
    | apply notMem_cons (by decide)

/-- C9 (confirmed): with the producer process present, sending an override
followed by a clear for a sensor appends exactly two writes to the
producer's stdin, in that order; each write is one line — a serialized
command object, newline-free, followed by a single `\n` — and each line's
content parses back (by the wire's JSON grammar) to exactly
`{"type":"override","sensor":...,"value":...}` respectively
`{"type":"clear_override","sensor":...}`. -/
theorem relay_override_clear_two_lines (st : RelayState) (sensor : String) (m : Int)
    (e : Nat) (h : st.pyAlive = true) :
    (clearOverrideHandler (overrideSensorHandler st sensor m e) sensor).writes
      = st.writes ++ [jsonStringify (overrideCmd sensor m e) ++ "\n",
          jsonStringify (clearCmd sensor) ++ "\n"]
    ∧ jsonParse (jsonStringify (overrideCmd sensor m e)) = some (overrideCmd sensor m e)
    ∧ jsonParse (jsonStringify (clearCmd sensor)) = some (clearCmd sensor)
    ∧ '\n' ∉ (jsonStringify (overrideCmd sensor m e)).data
    ∧ '\n' ∉ (jsonStringify (clearCmd sensor)).data := by
  refine ⟨?_, jsonParse_overrideCmd sensor m e, jsonParse_clearCmd sensor,
    nlNotMem_overrideCmd sensor m e, nlNotMem_clearCmd sensor⟩
  simp [overrideSensorHandler, clearOverrideHandler, h]

/-- C9 (witness): the spec's example, override co2 to 1500 then clear it. -/
theorem relay_override_clear_two_lines_witness :
    (RelayState.mk true []).pyAlive = true ∧
    (clearOverrideHandler (overrideSensorHandler ⟨true, []⟩ "co2" 1500 0) "co2").writes
      = [] ++ [jsonStringify (overrideCmd "co2" 1500 0) ++ "\n",
          jsonStringify (clearCmd "co2") ++ "\n"] :=
  ⟨rfl, (relay_override_clear_two_lines ⟨true, []⟩ "co2" 1500 0 rfl).1⟩
